import Mathlib

/-!
Shallow embedding of the SM-2 spaced-repetition engine (`SM2Card` /
`SM2Deck`) of this repository.  JS numbers are modelled as exact
rationals `ℚ`; epoch-millisecond timestamps as integers `ℤ`.  Every
`Date.now()` call site of the source is represented by an explicit
clock argument: `SM2Card.review` reads the clock twice (once when it
stamps `lastReviewed`, once when it schedules `nextReview`), so it
takes two clock arguments `now1`, `now2`; a read-counting clock model
(`ClockState`) is layered on top to reason about the number of reads.
-/

/-- The per-card state of the SM-2 implementation: the fields set by the
`SM2Card` constructor and mutated by `review`. -/
structure SM2Card where
  character : String
  easeFactor : ℚ
  interval : ℤ
  repetitions : ℕ
  nextReview : ℤ
  lastReviewed : Option ℤ
  totalReviews : ℕ
  correctCount : ℕ
  incorrectCount : ℕ
  averageResponseTime : ℚ
  isNew : Bool
  isLearning : Bool
  isMature : Bool
  deriving Repr, DecidableEq

/-- The `SM2Card` constructor: `easeFactor = 2.5`, `interval = 0`,
`repetitions = 0`, `nextReview = Date.now()` (the constructor's clock
read is the argument `now`), all counters zero, state `new`. -/
def initCard (character : String) (now : ℤ) : SM2Card where
  character := character
  easeFactor := 5/2
  interval := 0
  repetitions := 0
  nextReview := now
  lastReviewed := none
  totalReviews := 0
  correctCount := 0
  incorrectCount := 0
  averageResponseTime := 0
  isNew := true
  isLearning := false
  isMature := false

/-- Input validation of `review`: `quality = Math.max(0, Math.min(5, quality))`. -/
def clampQuality (quality : ℚ) : ℚ := max 0 (min 5 quality)

/-- The ease-factor delta of `review`:
`qualityFactor = 0.1 - (5 - quality) * (0.08 + (5 - quality) * 0.02)`. -/
def qualityFactor (quality : ℚ) : ℚ :=
  1/10 - (5 - quality) * (8/100 + (5 - quality) * (2/100))

/-- Statistics update at the top of `review`: increment `totalReviews`,
stamp `lastReviewed` with the first clock read, clear `isNew`. -/
def SM2Card.updateStats (c : SM2Card) (now1 : ℤ) : SM2Card :=
  { c with totalReviews := c.totalReviews + 1, lastReviewed := some now1, isNew := false }

/-- Response-time EMA of `review`: only when `responseTime > 0`; the
first sample is taken directly, later ones as `avg*0.8 + sample*0.2`. -/
def SM2Card.updateResponseTime (c : SM2Card) (responseTime : ℚ) : SM2Card :=
  if 0 < responseTime then
    if c.averageResponseTime = 0 then
      { c with averageResponseTime := responseTime }
    else
      { c with averageResponseTime :=
          c.averageResponseTime * (8/10) + responseTime * (2/10) }
  else c

/-- The SM-2 core branch of `review` (`q` is the already-clamped
quality): pass (`q >= 3`) walks the `1 / 6 / round(interval*ease)`
interval ladder and increments `repetitions`; fail resets to the
beginning (`repetitions = 0`, `interval = 1`, learning state). -/
def SM2Card.applyGrade (c : SM2Card) (q : ℚ) : SM2Card :=
  if 3 ≤ q then
    if c.repetitions = 0 then
      { c with correctCount := c.correctCount + 1, interval := 1,
               isLearning := true, repetitions := c.repetitions + 1 }
    else if c.repetitions = 1 then
      { c with correctCount := c.correctCount + 1, interval := 6,
               isLearning := true, repetitions := c.repetitions + 1 }
    else
      { c with correctCount := c.correctCount + 1,
               interval := round ((c.interval : ℚ) * c.easeFactor),
               isLearning := false, isMature := true,
               repetitions := c.repetitions + 1 }
  else
    { c with incorrectCount := c.incorrectCount + 1, repetitions := 0,
             interval := 1, isLearning := true, isMature := false }

/-- Ease update of `review`: `easeFactor = max(1.3, easeFactor + qualityFactor)`. -/
def SM2Card.updateEase (c : SM2Card) (q : ℚ) : SM2Card :=
  { c with easeFactor := max (13/10) (c.easeFactor + qualityFactor q) }

/-- Scheduling step of `review`:
`nextReview = Date.now() + interval * 24*60*60*1000`, with `now2` the
second clock read of the operation. -/
def SM2Card.schedule (c : SM2Card) (now2 : ℤ) : SM2Card :=
  { c with nextReview := now2 + c.interval * (24 * 60 * 60 * 1000) }

/-- Method `SM2Card.review(quality, responseTime)`, with the results of
its two `Date.now()` calls passed as `now1` (statistics stamp) and
`now2` (scheduling). -/
def SM2Card.review (c : SM2Card) (quality responseTime : ℚ) (now1 now2 : ℤ) : SM2Card :=
  ((((c.updateStats now1).updateResponseTime responseTime).applyGrade
      (clampQuality quality)).updateEase (clampQuality quality)).schedule now2

/-- Method `isDue()`: `Date.now() >= nextReview`. -/
def SM2Card.isDue (c : SM2Card) (now : ℤ) : Bool :=
  decide (c.nextReview ≤ now)

/-- Method `getDaysUntilReview()`: `(nextReview - Date.now()) / (24*60*60*1000)`. -/
def SM2Card.getDaysUntilReview (c : SM2Card) (now : ℤ) : ℚ :=
  ((c.nextReview - now : ℤ) : ℚ) / (24 * 60 * 60 * 1000)

/-- Method `getDaysOverdue()`: `0` when not due, else
`Math.abs(getDaysUntilReview())`. -/
def SM2Card.getDaysOverdue (c : SM2Card) (now : ℤ) : ℚ :=
  if c.isDue now then |c.getDaysUntilReview now| else 0

/-- Method `getState()`: the display tag derived from the three flags. -/
def SM2Card.getState (c : SM2Card) : String :=
  if c.isNew then "new"
  else if c.isLearning then "learning"
  else if c.isMature then "mature"
  else "unknown"

/-- Method `SM2Card.toJSON()`: the serialized plain object carries all
thirteen fields, so it is represented by the same record type. -/
def SM2Card.toJSON (c : SM2Card) : SM2Card where
  character := c.character
  easeFactor := c.easeFactor
  interval := c.interval
  repetitions := c.repetitions
  nextReview := c.nextReview
  lastReviewed := c.lastReviewed
  totalReviews := c.totalReviews
  correctCount := c.correctCount
  incorrectCount := c.incorrectCount
  averageResponseTime := c.averageResponseTime
  isNew := c.isNew
  isLearning := c.isLearning
  isMature := c.isMature

/-- Static method `SM2Card.fromJSON(data)`: `new SM2Card(data.character)`
(whose constructor reads the clock, argument `now`) followed by
`Object.assign(card, data)`, which overwrites every field with the
stored one. -/
def SM2Card.fromJSON (data : SM2Card) (now : ℤ) : SM2Card :=
  { initCard data.character now with
      character := data.character
      easeFactor := data.easeFactor
      interval := data.interval
      repetitions := data.repetitions
      nextReview := data.nextReview
      lastReviewed := data.lastReviewed
      totalReviews := data.totalReviews
      correctCount := data.correctCount
      incorrectCount := data.incorrectCount
      averageResponseTime := data.averageResponseTime
      isNew := data.isNew
      isLearning := data.isLearning
      isMature := data.isMature }

/-- The `SM2Deck` state: the `Map` of cards is modelled as a list of
key/card pairs in insertion order (JS `Map` iterates in insertion
order), plus the two configuration scalars. -/
structure SM2Deck where
  cards : List (String × SM2Card)
  newCardsPerDay : ℤ
  maxReviewsPerSession : ℤ
  deriving Repr, DecidableEq

/-- The `SM2Deck` constructor: empty map, `newCardsPerDay = 5`,
`maxReviewsPerSession = 50`. -/
def emptyDeck : SM2Deck where
  cards := []
  newCardsPerDay := 5
  maxReviewsPerSession := 50

/-- Test `this.cards.has(character)`. -/
def SM2Deck.hasCard (d : SM2Deck) (character : String) : Bool :=
  d.cards.any (fun p => decide (p.1 = character))

/-- Method `addCard(character)`: insert a fresh card only when the key
is absent (`Map.set` appends in insertion order). -/
def SM2Deck.addCard (d : SM2Deck) (character : String) (now : ℤ) : SM2Deck :=
  if d.hasCard character then d
  else { d with cards := d.cards ++ [(character, initCard character now)] }

/-- The sequence `Array.from(this.cards.values())`: the cards in
insertion order. -/
def SM2Deck.values (d : SM2Deck) : List SM2Card :=
  d.cards.map Prod.snd

/-- Method `getDueCards()`: filter the due cards and sort them by
`getDaysOverdue` descending.  `Array.prototype.sort` is stable
(ECMAScript 2019), which `List.insertionSort` models exactly. -/
def SM2Deck.getDueCards (d : SM2Deck) (now : ℤ) : List SM2Card :=
  List.insertionSort (fun a b => b.getDaysOverdue now ≤ a.getDaysOverdue now)
    (d.values.filter (fun c => c.isDue now))

/-- Method `getNewCards(limit)`: the never-reviewed cards in insertion
order, truncated by `slice(0, limit)`. -/
def SM2Deck.getNewCards (d : SM2Deck) (limit : ℕ) : List SM2Card :=
  (d.values.filter (fun c => c.isNew)).take limit

/-- Method `getNextCard()`: first of the due cards when any is due,
else one new card (`getNewCards(1)`), else `null`. -/
def SM2Deck.getNextCard (d : SM2Deck) (now : ℤ) : Option SM2Card :=
  match d.getDueCards now with
  | c :: _ => some c
  | [] =>
    match d.getNewCards 1 with
    | c :: _ => some c
    | [] => none

/-- Grading a card through the deck, as the host does:
`deck.getCard(ch).review(...)` mutates the matching map entry. -/
def SM2Deck.gradeCard (d : SM2Deck) (character : String) (quality responseTime : ℚ)
    (now1 now2 : ℤ) : SM2Deck :=
  { d with cards := d.cards.map (fun p =>
      if p.1 = character then (p.1, p.2.review quality responseTime now1 now2) else p) }

/-- The record returned by `getStats()`. -/
structure DeckStats where
  total : ℕ
  newCount : ℕ
  learning : ℕ
  mature : ℕ
  due : ℕ
  totalReviews : ℕ
  totalCorrect : ℕ
  totalIncorrect : ℕ
  deriving Repr, DecidableEq

/-- Method `getStats()`: read-only aggregate counts over the cards
(`newCount` models the source's `new` field). -/
def SM2Deck.getStats (d : SM2Deck) (now : ℤ) : DeckStats where
  total := d.values.length
  newCount := (d.values.filter (fun c => c.isNew)).length
  learning := (d.values.filter (fun c => c.isLearning && !c.isNew)).length
  mature := (d.values.filter (fun c => c.isMature)).length
  due := (d.values.filter (fun c => c.isDue now)).length
  totalReviews := (d.values.map (fun c => c.totalReviews)).sum
  totalCorrect := (d.values.map (fun c => c.correctCount)).sum
  totalIncorrect := (d.values.map (fun c => c.incorrectCount)).sum

/-- The persisted deck shape produced by `SM2Deck.toJSON()`. -/
structure SM2DeckJSON where
  cards : List (String × SM2Card)
  newCardsPerDay : ℤ
  maxReviewsPerSession : ℤ
  deriving Repr, DecidableEq

/-- Method `SM2Deck.toJSON()`: serialize every card under its key
(insertion order preserved) together with the two scalars. -/
def SM2Deck.toJSON (d : SM2Deck) : SM2DeckJSON where
  cards := d.cards.map (fun p => (p.1, p.2.toJSON))
  newCardsPerDay := d.newCardsPerDay
  maxReviewsPerSession := d.maxReviewsPerSession

/-- Static method `SM2Deck.fromJSON(data)`: restore each card;
`data.newCardsPerDay || 5` and `data.maxReviewsPerSession || 50` fall
back to the defaults for falsy stored values, which for an
integer-valued field means the stored value `0`.  `now` is the clock
read of the card constructors during restore (overwritten anyway). -/
def SM2Deck.fromJSON (data : SM2DeckJSON) (now : ℤ) : SM2Deck where
  cards := data.cards.map (fun p => (p.1, SM2Card.fromJSON p.2 now))
  newCardsPerDay := if data.newCardsPerDay = 0 then 5 else data.newCardsPerDay
  maxReviewsPerSession := if data.maxReviewsPerSession = 0 then 50 else data.maxReviewsPerSession

/-- A deterministic clock for counting `Date.now()` reads: `clk n` is
the value produced by the `n`-th read. -/
structure ClockState where
  clk : ℕ → ℤ
  reads : ℕ

/-- One `Date.now()` call: returns the next clock value and bumps the
read counter. -/
def readClock (s : ClockState) : ℤ × ClockState :=
  (s.clk s.reads, { s with reads := s.reads + 1 })

/-- Method `review` with its two `Date.now()` call sites performed
against the read-counting clock: the first read stamps `lastReviewed`,
the second schedules `nextReview`. -/
def SM2Card.reviewWithClock (c : SM2Card) (quality responseTime : ℚ) (s : ClockState) :
    SM2Card × ClockState :=
  let r1 := readClock s
  let r2 := readClock r1.2
  (c.review quality responseTime r1.1 r2.1, r2.2)

/-- One grading step's inputs: the grade, the measured response time
and the two clock values read during the operation. -/
structure ReviewInput where
  quality : ℚ
  responseTime : ℚ
  now1 : ℤ
  now2 : ℤ

/-- Fold a sequence of grading operations over a card. -/
def applyReviews (c : SM2Card) (ops : List ReviewInput) : SM2Card :=
  ops.foldl (fun c op => c.review op.quality op.responseTime op.now1 op.now2) c

/-- The deck states reachable from a fresh empty deck through the
engine's mutating operations (`addCard` and grading a card). -/
inductive Reachable : SM2Deck → Prop
  | empty : Reachable emptyDeck
  | add (d : SM2Deck) (character : String) (now : ℤ) :
      Reachable d → Reachable (d.addCard character now)
  | grade (d : SM2Deck) (character : String) (q rt : ℚ) (now1 now2 : ℤ) :
      Reachable d → Reachable (d.gradeCard character q rt now1 now2)

example : (initCard "A" 0).getState = "new" := by decide
example : ((initCard "A" 0).review 5 0 0 0).interval = 1 := by decide
example : ((initCard "A" 0).review 5 0 0 0).easeFactor = 26/10 := by
  norm_num [SM2Card.review, SM2Card.updateStats, SM2Card.updateResponseTime,
    SM2Card.applyGrade, SM2Card.updateEase, SM2Card.schedule, clampQuality,
    qualityFactor, initCard, min_def, max_def]

/-! Projection lemmas: which fields each step of `review` leaves
unchanged, and the branch equations of the SM-2 core. -/

@[simp] theorem updateResponseTime_repetitions (c : SM2Card) (rt : ℚ) :
    (c.updateResponseTime rt).repetitions = c.repetitions := by
  unfold SM2Card.updateResponseTime; split_ifs <;> rfl

@[simp] theorem updateResponseTime_interval (c : SM2Card) (rt : ℚ) :
    (c.updateResponseTime rt).interval = c.interval := by
  unfold SM2Card.updateResponseTime; split_ifs <;> rfl

@[simp] theorem updateResponseTime_easeFactor (c : SM2Card) (rt : ℚ) :
    (c.updateResponseTime rt).easeFactor = c.easeFactor := by
  unfold SM2Card.updateResponseTime; split_ifs <;> rfl

@[simp] theorem updateResponseTime_correctCount (c : SM2Card) (rt : ℚ) :
    (c.updateResponseTime rt).correctCount = c.correctCount := by
  unfold SM2Card.updateResponseTime; split_ifs <;> rfl

@[simp] theorem updateResponseTime_incorrectCount (c : SM2Card) (rt : ℚ) :
    (c.updateResponseTime rt).incorrectCount = c.incorrectCount := by
  unfold SM2Card.updateResponseTime; split_ifs <;> rfl

@[simp] theorem updateResponseTime_isNew (c : SM2Card) (rt : ℚ) :
    (c.updateResponseTime rt).isNew = c.isNew := by
  unfold SM2Card.updateResponseTime; split_ifs <;> rfl

@[simp] theorem updateResponseTime_isLearning (c : SM2Card) (rt : ℚ) :
    (c.updateResponseTime rt).isLearning = c.isLearning := by
  unfold SM2Card.updateResponseTime; split_ifs <;> rfl

@[simp] theorem updateResponseTime_isMature (c : SM2Card) (rt : ℚ) :
    (c.updateResponseTime rt).isMature = c.isMature := by
  unfold SM2Card.updateResponseTime; split_ifs <;> rfl

@[simp] theorem updateResponseTime_lastReviewed (c : SM2Card) (rt : ℚ) :
    (c.updateResponseTime rt).lastReviewed = c.lastReviewed := by
  unfold SM2Card.updateResponseTime; split_ifs <;> rfl

@[simp] theorem updateResponseTime_nextReview (c : SM2Card) (rt : ℚ) :
    (c.updateResponseTime rt).nextReview = c.nextReview := by
  unfold SM2Card.updateResponseTime; split_ifs <;> rfl

@[simp] theorem updateResponseTime_totalReviews (c : SM2Card) (rt : ℚ) :
    (c.updateResponseTime rt).totalReviews = c.totalReviews := by
  unfold SM2Card.updateResponseTime; split_ifs <;> rfl

@[simp] theorem applyGrade_easeFactor (c : SM2Card) (q : ℚ) :
    (c.applyGrade q).easeFactor = c.easeFactor := by
  unfold SM2Card.applyGrade; split_ifs <;> rfl

@[simp] theorem applyGrade_nextReview (c : SM2Card) (q : ℚ) :
    (c.applyGrade q).nextReview = c.nextReview := by
  unfold SM2Card.applyGrade; split_ifs <;> rfl

@[simp] theorem applyGrade_lastReviewed (c : SM2Card) (q : ℚ) :
    (c.applyGrade q).lastReviewed = c.lastReviewed := by
  unfold SM2Card.applyGrade; split_ifs <;> rfl

@[simp] theorem applyGrade_totalReviews (c : SM2Card) (q : ℚ) :
    (c.applyGrade q).totalReviews = c.totalReviews := by
  unfold SM2Card.applyGrade; split_ifs <;> rfl

@[simp] theorem applyGrade_isNew (c : SM2Card) (q : ℚ) :
    (c.applyGrade q).isNew = c.isNew := by
  unfold SM2Card.applyGrade; split_ifs <;> rfl

/-- Pass branch, `repetitions == 0`. -/
theorem applyGrade_pass_rep0 (c : SM2Card) (q : ℚ) (hq : 3 ≤ q) (h0 : c.repetitions = 0) :
    c.applyGrade q =
      { c with correctCount := c.correctCount + 1, interval := 1,
               isLearning := true, repetitions := c.repetitions + 1 } := by
  unfold SM2Card.applyGrade; rw [if_pos hq, if_pos h0]

/-- Pass branch, `repetitions == 1`. -/
theorem applyGrade_pass_rep1 (c : SM2Card) (q : ℚ) (hq : 3 ≤ q) (h1 : c.repetitions = 1) :
    c.applyGrade q =
      { c with correctCount := c.correctCount + 1, interval := 6,
               isLearning := true, repetitions := c.repetitions + 1 } := by
  unfold SM2Card.applyGrade
  rw [if_pos hq, if_neg (by omega), if_pos h1]

/-- Pass branch, `repetitions >= 2`. -/
theorem applyGrade_pass_rep2 (c : SM2Card) (q : ℚ) (hq : 3 ≤ q) (h2 : 2 ≤ c.repetitions) :
    c.applyGrade q =
      { c with correctCount := c.correctCount + 1,
               interval := round ((c.interval : ℚ) * c.easeFactor),
               isLearning := false, isMature := true,
               repetitions := c.repetitions + 1 } := by
  unfold SM2Card.applyGrade
  rw [if_pos hq, if_neg (by omega), if_neg (by omega)]

/-- Fail branch. -/
theorem applyGrade_fail (c : SM2Card) (q : ℚ) (hq : ¬ 3 ≤ q) :
    c.applyGrade q =
      { c with incorrectCount := c.incorrectCount + 1, repetitions := 0,
               interval := 1, isLearning := true, isMature := false } := by
  unfold SM2Card.applyGrade; rw [if_neg hq]

theorem applyGrade_pass_repetitions (c : SM2Card) (q : ℚ) (hq : 3 ≤ q) :
    (c.applyGrade q).repetitions = c.repetitions + 1 := by
  unfold SM2Card.applyGrade; rw [if_pos hq]; split_ifs <;> rfl

theorem applyGrade_pass_correctCount (c : SM2Card) (q : ℚ) (hq : 3 ≤ q) :
    (c.applyGrade q).correctCount = c.correctCount + 1 := by
  unfold SM2Card.applyGrade; rw [if_pos hq]; split_ifs <;> rfl

/-- The ease factor after any `review` is the floored update of the
ease factor before it, through the `qualityFactor` formula. -/
theorem review_easeFactor (c : SM2Card) (q rt : ℚ) (n1 n2 : ℤ) :
    (c.review q rt n1 n2).easeFactor =
      max (13/10) (c.easeFactor + qualityFactor (clampQuality q)) := by
  simp [SM2Card.review, SM2Card.schedule, SM2Card.updateEase, SM2Card.updateStats]

theorem review_easeFactor_ge (c : SM2Card) (q rt : ℚ) (n1 n2 : ℤ) :
    13/10 ≤ (c.review q rt n1 n2).easeFactor := by
  rw [review_easeFactor]; exact le_max_left _ _

theorem applyReviews_cons (c : SM2Card) (op : ReviewInput) (ops : List ReviewInput) :
    applyReviews c (op :: ops) =
      applyReviews (c.review op.quality op.responseTime op.now1 op.now2) ops := rfl

theorem applyReviews_easeFactor_ge (ops : List ReviewInput) (c : SM2Card)
    (h : 13/10 ≤ c.easeFactor) : 13/10 ≤ (applyReviews c ops).easeFactor := by
  induction ops generalizing c with
  | nil => exact h
  | cons op ops ih =>
    rw [applyReviews_cons]
    exact ih _ (review_easeFactor_ge _ _ _ _ _)

/-- C3: starting from the initial ease 2.5, after every finite sequence
of grade operations with arbitrary quality and response-time inputs the
ease factor (`memoryStrength`) is at least 1.3. -/
theorem easeFactor_floor (character : String) (now0 : ℤ) (ops : List ReviewInput) :
    13/10 ≤ (applyReviews (initCard character now0) ops).easeFactor := by
  apply applyReviews_easeFactor_ge
  norm_num [initCard]

/-- C4 counterexample: the claim is false at the code's formula: at
quality 3 the delta is -0.14, not -0.06, and at quality 4 the delta is
exactly 0, hence not negative. -/
theorem qualityFactor_counterexample :
    qualityFactor 3 = -(14/100) ∧ ¬ qualityFactor 3 = -(6/100) ∧
    qualityFactor 4 = 0 ∧ ¬ qualityFactor 4 < 0 := by
  norm_num [qualityFactor]

/-- C4 (amended): the formula
`delta = 0.1 - (5 - quality) * (0.08 + (5 - quality) * 0.02)` is used
by `review` for both branches (the ease factor always becomes
`max(1.3, ease + delta)`); at quality exactly 3 the delta is -0.14;
the delta is negative at qualities 0, 1, 2 and 3, zero at quality 4
and positive only at quality 5. -/
theorem qualityFactor_spec :
    (∀ (c : SM2Card) (q rt : ℚ) (n1 n2 : ℤ),
      (c.review q rt n1 n2).easeFactor =
        max (13/10) (c.easeFactor + qualityFactor (clampQuality q))) ∧
    qualityFactor 3 = -(14/100) ∧
    qualityFactor 0 < 0 ∧ qualityFactor 1 < 0 ∧ qualityFactor 2 < 0 ∧
    qualityFactor 3 < 0 ∧ qualityFactor 4 = 0 ∧ 0 < qualityFactor 5 := by
  refine ⟨review_easeFactor, ?_, ?_, ?_, ?_, ?_, ?_, ?_⟩ <;> norm_num [qualityFactor]

/-- C1: a grade whose clamped quality is at least 3 increments
`repetitions` and `correctCount`; from `repetitions = 0` it sets
`interval = 1` and the learning state, from `repetitions = 1` it sets
`interval = 6` and the learning state, and from `repetitions >= 2` it
sets `interval = round(previousInterval * easeFactor)` (the ease value
before this grade's ease update) and the mature state. -/
theorem review_pass_spec (c : SM2Card) (q rt : ℚ) (n1 n2 : ℤ)
    (hq : 3 ≤ clampQuality q) :
    (c.review q rt n1 n2).repetitions = c.repetitions + 1 ∧
    (c.review q rt n1 n2).correctCount = c.correctCount + 1 ∧
    (c.repetitions = 0 →
      (c.review q rt n1 n2).interval = 1 ∧ (c.review q rt n1 n2).getState = "learning") ∧
    (c.repetitions = 1 →
      (c.review q rt n1 n2).interval = 6 ∧ (c.review q rt n1 n2).getState = "learning") ∧
    (2 ≤ c.repetitions →
      (c.review q rt n1 n2).interval = round ((c.interval : ℚ) * c.easeFactor) ∧
      (c.review q rt n1 n2).getState = "mature") := by
  refine ⟨?_, ?_, fun h0 => ?_, fun h1 => ?_, fun h2 => ?_⟩
  · simp [SM2Card.review, SM2Card.schedule, SM2Card.updateEase,
      applyGrade_pass_repetitions _ _ hq, SM2Card.updateStats]
  · simp [SM2Card.review, SM2Card.schedule, SM2Card.updateEase,
      applyGrade_pass_correctCount _ _ hq, SM2Card.updateStats]
  · rw [SM2Card.review,
      applyGrade_pass_rep0 _ _ hq (by simp [SM2Card.updateStats, h0])]
    constructor <;>
      simp [SM2Card.schedule, SM2Card.updateEase, SM2Card.getState, SM2Card.updateStats]
  · rw [SM2Card.review,
      applyGrade_pass_rep1 _ _ hq (by simp [SM2Card.updateStats, h1])]
    constructor <;>
      simp [SM2Card.schedule, SM2Card.updateEase, SM2Card.getState, SM2Card.updateStats]
  · rw [SM2Card.review,
      applyGrade_pass_rep2 _ _ hq (by simp [SM2Card.updateStats]; omega)]
    constructor <;>
      simp [SM2Card.schedule, SM2Card.updateEase, SM2Card.getState, SM2Card.updateStats]

/-- C1 witness: the hypothesis and the conclusion at a fresh card
graded with quality 5. -/
theorem review_pass_spec_witness :
    (3 ≤ clampQuality 5) ∧
    (((initCard "A" 0).review 5 0 0 0).repetitions = (initCard "A" 0).repetitions + 1 ∧
    ((initCard "A" 0).review 5 0 0 0).correctCount = (initCard "A" 0).correctCount + 1 ∧
    ((initCard "A" 0).repetitions = 0 →
      ((initCard "A" 0).review 5 0 0 0).interval = 1 ∧
      ((initCard "A" 0).review 5 0 0 0).getState = "learning") ∧
    ((initCard "A" 0).repetitions = 1 →
      ((initCard "A" 0).review 5 0 0 0).interval = 6 ∧
      ((initCard "A" 0).review 5 0 0 0).getState = "learning") ∧
    (2 ≤ (initCard "A" 0).repetitions →
      ((initCard "A" 0).review 5 0 0 0).interval =
        round (((initCard "A" 0).interval : ℚ) * (initCard "A" 0).easeFactor) ∧
      ((initCard "A" 0).review 5 0 0 0).getState = "mature")) :=
  ⟨by decide, review_pass_spec (initCard "A" 0) 5 0 0 0 (by decide)⟩

/-- C2: a grade whose clamped quality is below 3 resets `repetitions`
to 0 and `interval` to 1, sets the learning state (never mature,
whatever the prior state) and increments `incorrectCount`. -/
theorem review_fail_spec (c : SM2Card) (q rt : ℚ) (n1 n2 : ℤ)
    (hq : clampQuality q < 3) :
    (c.review q rt n1 n2).repetitions = 0 ∧
    (c.review q rt n1 n2).interval = 1 ∧
    (c.review q rt n1 n2).getState = "learning" ∧
    (c.review q rt n1 n2).getState ≠ "mature" ∧
    (c.review q rt n1 n2).incorrectCount = c.incorrectCount + 1 := by
  rw [SM2Card.review, applyGrade_fail _ _ (not_le.mpr hq)]
  refine ⟨?_, ?_, ?_, ?_, ?_⟩ <;>
    simp [SM2Card.schedule, SM2Card.updateEase, SM2Card.getState, SM2Card.updateStats]

/-- C2 witness: the hypothesis and the conclusion at a mature card with
positive repetitions graded with quality 0. -/
theorem review_fail_spec_witness :
    clampQuality 0 < 3 ∧
    (let c : SM2Card := { initCard "A" 0 with repetitions := 5, interval := 15,
                                              isNew := false, isLearning := false,
                                              isMature := true }
    (c.review 0 0 0 0).repetitions = 0 ∧
    (c.review 0 0 0 0).interval = 1 ∧
    (c.review 0 0 0 0).getState = "learning" ∧
    (c.review 0 0 0 0).getState ≠ "mature" ∧
    (c.review 0 0 0 0).incorrectCount = c.incorrectCount + 1) :=
  ⟨by decide, review_fail_spec _ 0 0 0 0 (by decide)⟩

/-- C8 counterexample: `review` reads `Date.now()` twice (once for
`lastReviewed`, once for `nextReview`); when the clock advances between
the two reads (here from 0 to 1) the graded card violates
`dueAt = lastReviewedAt + interval * 24*60*60*1000`. -/
theorem review_schedule_counterexample :
    ((initCard "A" 0).review 5 0 0 1).lastReviewed = some 0 ∧
    ((initCard "A" 0).review 5 0 0 1).interval = 1 ∧
    ((initCard "A" 0).review 5 0 0 1).nextReview ≠ 0 + 1 * (24 * 60 * 60 * 1000) := by
  refine ⟨by decide, by decide, by decide⟩

/-- C8 (amended): after every grade, `nextReview` equals the clock
value of the operation's second `Date.now()` read plus
`interval * 24*60*60*1000`; hence whenever both reads of the operation
return the same instant `t`, the graded card satisfies
`dueAt = lastReviewedAt + interval` in milliseconds. -/
theorem review_schedule_spec (c : SM2Card) (q rt : ℚ) (n1 t : ℤ) :
    (c.review q rt n1 t).nextReview =
      t + (c.review q rt n1 t).interval * (24 * 60 * 60 * 1000) ∧
    (c.review q rt t t).lastReviewed = some t ∧
    (c.review q rt t t).nextReview =
      t + (c.review q rt t t).interval * (24 * 60 * 60 * 1000) := by
  refine ⟨rfl, ?_, rfl⟩
  simp [SM2Card.review, SM2Card.schedule, SM2Card.updateEase, SM2Card.updateStats]

/-- C7 counterexample: one `review` (grade) operation performs two
clock reads, not at most one. -/
theorem reviewWithClock_counterexample :
    ((initCard "A" 0).reviewWithClock 5 0 ⟨fun n => n, 0⟩).2.reads = 2 ∧
    ¬ ((initCard "A" 0).reviewWithClock 5 0 ⟨fun n => n, 0⟩).2.reads ≤ 1 :=
  ⟨rfl, by decide⟩

/-- C7 (amended): a grade operation reads the clock exactly twice (the
read counter advances from `reads` to `reads + 2`), and it is a pure
deterministic function of the card, the quality, the response time and
the two clock values read — bit-for-bit: the result is literally
`review` applied to those four inputs and the two read values. -/
theorem reviewWithClock_spec (c : SM2Card) (q rt : ℚ) (s : ClockState) :
    c.reviewWithClock q rt s =
      (c.review q rt (s.clk s.reads) (s.clk (s.reads + 1)),
        ⟨s.clk, s.reads + 2⟩) := rfl

/-- For a due card, `getDaysOverdue` is `(now - nextReview)` in days. -/
theorem due_getDaysOverdue (c : SM2Card) (now : ℤ) (h : c.isDue now = true) :
    c.getDaysOverdue now = ((now - c.nextReview : ℤ) : ℚ) / (24 * 60 * 60 * 1000) := by
  have hn : c.nextReview ≤ now := by simpa [SM2Card.isDue] using h
  have hq : ((c.nextReview : ℚ)) ≤ ((now : ℤ) : ℚ) := by exact_mod_cast hn
  rw [SM2Card.getDaysOverdue, if_pos h, SM2Card.getDaysUntilReview, abs_div,
    abs_of_nonpos (by push_cast; linarith : ((c.nextReview - now : ℤ) : ℚ) ≤ 0),
    abs_of_pos (by norm_num : (0 : ℚ) < 24 * 60 * 60 * 1000)]
  push_cast
  ring_nf

/-- For due cards, comparing `getDaysOverdue` is comparing overdueness
`now - nextReview`. -/
theorem due_overdue_le_iff (a b : SM2Card) (now : ℤ)
    (ha : a.isDue now = true) (hb : b.isDue now = true) :
    (b.getDaysOverdue now ≤ a.getDaysOverdue now) ↔
      (now - b.nextReview ≤ now - a.nextReview) := by
  rw [due_getDaysOverdue _ _ ha, due_getDaysOverdue _ _ hb,
    div_le_div_iff_of_pos_right (by norm_num : (0 : ℚ) < 24 * 60 * 60 * 1000)]
  exact_mod_cast Iff.rfl

theorem pairwise_imp_of_mem {α : Type} (R S : α → α → Prop) :
    ∀ {l : List α}, (∀ a ∈ l, ∀ b ∈ l, R a b → S a b) → l.Pairwise R → l.Pairwise S := by
  intro l
  induction l with
  | nil => intro _ _; exact List.Pairwise.nil
  | cons x xs ih =>
    intro h hp
    rw [List.pairwise_cons] at hp ⊢
    refine ⟨fun b hb => h x (by simp) b (by simp [hb]) (hp.1 b hb), ?_⟩
    exact ih (fun a ha b hb hr => h a (by simp [ha]) b (by simp [hb]) hr) hp.2

/-- Stability of `orderedInsert` for a measure `f`: the inserted
element goes in front of exactly the earlier elements with a strictly
smaller measure, so filtering at the inserted element's measure puts it
first and filtering at any other value is unchanged. -/
theorem filter_orderedInsert_measure {α : Type} (f : α → ℚ) (v : ℚ) (a : α) (l : List α) :
    (List.orderedInsert (fun x y => f y ≤ f x) a l).filter (fun x => decide (f x = v)) =
      if f a = v then a :: l.filter (fun x => decide (f x = v))
      else l.filter (fun x => decide (f x = v)) := by
  induction l with
  | nil =>
    by_cases hv : f a = v <;> simp [List.orderedInsert, hv]
  | cons b l ih =>
    show (if f b ≤ f a then _ else _ : List α).filter _ = _
    by_cases hab : f b ≤ f a
    · rw [if_pos hab]
      by_cases hv : f a = v <;> by_cases hbv : f b = v <;>
        simp [List.filter_cons, hv, hbv]
    · rw [if_neg hab]
      have hlt : f a < f b := lt_of_not_le hab
      by_cases hv : f a = v
      · have hbv : f b ≠ v := by rw [← hv]; exact ne_of_gt hlt
        simp [List.filter_cons, hv, hbv, ih]
      · by_cases hbv : f b = v <;> simp [List.filter_cons, hv, hbv, ih]

/-- Stability of `insertionSort` for a measure `f`: the sorted list
filtered at any measure value equals the input filtered there, i.e.
equal-measure elements keep their input order. -/
theorem filter_insertionSort_measure {α : Type} (f : α → ℚ) (v : ℚ) (l : List α) :
    (List.insertionSort (fun x y => f y ≤ f x) l).filter (fun x => decide (f x = v)) =
      l.filter (fun x => decide (f x = v)) := by
  induction l with
  | nil => rfl
  | cons a l ih =>
    show (List.orderedInsert _ a _).filter _ = _
    rw [filter_orderedInsert_measure, ih, List.filter_cons]
    by_cases hv : f a = v <;> simp [hv]

/-- C5: `getDueCards` returns exactly the cards with `nextReview <= now`
(as a permutation of the due-filtered deck, in particular the same
members), sorted descending by `getDaysOverdue`, equivalently by
overdueness `now - nextReview`; cards with equal overdueness keep the
deck's insertion order (filtering the output at any fixed overdueness
value reproduces the input order). -/
theorem getDueCards_spec (d : SM2Deck) (now : ℤ) :
    (d.getDueCards now).Perm (d.values.filter (fun c => c.isDue now)) ∧
    (∀ x ∈ d.getDueCards now, x ∈ d.values ∧ x.isDue now = true) ∧
    (d.getDueCards now).Pairwise
      (fun a b => b.getDaysOverdue now ≤ a.getDaysOverdue now) ∧
    (d.getDueCards now).Pairwise
      (fun a b => now - b.nextReview ≤ now - a.nextReview) ∧
    (∀ v : ℚ, (d.getDueCards now).filter (fun c => decide (c.getDaysOverdue now = v)) =
      (d.values.filter (fun c => c.isDue now)).filter
        (fun c => decide (c.getDaysOverdue now = v))) := by
  have hperm : (d.getDueCards now).Perm (d.values.filter (fun c => c.isDue now)) :=
    List.perm_insertionSort _ _
  have hmem : ∀ x ∈ d.getDueCards now, x ∈ d.values ∧ x.isDue now = true := by
    intro x hx
    have hx' : x ∈ d.values.filter (fun c => c.isDue now) := hperm.mem_iff.mp hx
    exact ⟨(List.mem_filter.mp hx').1, (List.mem_filter.mp hx').2⟩
  have hsorted : (d.getDueCards now).Pairwise
      (fun a b => b.getDaysOverdue now ≤ a.getDaysOverdue now) := by
    haveI : IsTotal SM2Card (fun a b => b.getDaysOverdue now ≤ a.getDaysOverdue now) :=
      ⟨fun a b => le_total _ _⟩
    haveI : IsTrans SM2Card (fun a b => b.getDaysOverdue now ≤ a.getDaysOverdue now) :=
      ⟨fun _ _ _ h1 h2 => le_trans h2 h1⟩
    exact List.sorted_insertionSort _ _
  refine ⟨hperm, hmem, hsorted, ?_, ?_⟩
  · exact pairwise_imp_of_mem _ _
      (fun a ha b hb h =>
        (due_overdue_le_iff a b now (hmem a ha).2 (hmem b hb).2).mp h) hsorted
  · intro v
    exact filter_insertionSort_measure (fun c : SM2Card => c.getDaysOverdue now) v _

/-- C6: `getNextCard` returns the first (most overdue) element of
`getDueCards` when some card is due; otherwise a card still in the new
state when one exists; otherwise the empty sentinel `none` (an `Option`
value, not a failure). -/
theorem getNextCard_spec (d : SM2Deck) (now : ℤ) :
    (∀ c rest, d.getDueCards now = c :: rest → d.getNextCard now = some c) ∧
    (d.getDueCards now = [] →
      ((∃ c ∈ d.values, c.isNew = true) →
        ∃ c, d.getNextCard now = some c ∧ c ∈ d.values ∧ c.isNew = true) ∧
      ((∀ c ∈ d.values, c.isNew = false) → d.getNextCard now = none)) := by
  constructor
  · intro c rest h
    simp [SM2Deck.getNextCard, h]
  · intro hdue
    constructor
    · rintro ⟨c, hc, hnew⟩
      have hf : c ∈ d.values.filter (fun x => x.isNew) :=
        List.mem_filter.mpr ⟨hc, hnew⟩
      cases hfl : d.values.filter (fun x => x.isNew) with
      | nil => rw [hfl] at hf; cases hf
      | cons c0 l =>
        have hc0 : c0 ∈ d.values.filter (fun x => x.isNew) := by
          rw [hfl]; exact List.mem_cons_self _ _
        refine ⟨c0, ?_, (List.mem_filter.mp hc0).1, (List.mem_filter.mp hc0).2⟩
        simp [SM2Deck.getNextCard, hdue, SM2Deck.getNewCards, hfl]
    · intro hnone
      have hfl : d.values.filter (fun x => x.isNew) = [] :=
        List.filter_eq_nil_iff.mpr (fun c hc => by simp [hnone c hc])
      simp [SM2Deck.getNextCard, hdue, SM2Deck.getNewCards, hfl]

/-- C6 witness: the three scenarios at concrete one-card and empty
decks: a due card is returned first, else a new card, else `none`. -/
theorem getNextCard_spec_witness :
    ((emptyDeck.addCard "A" 0).getDueCards 0 = [initCard "A" 0] ∧
      (emptyDeck.addCard "A" 0).getNextCard 0 = some (initCard "A" 0)) ∧
    ((emptyDeck.addCard "B" 5).getDueCards 0 = [] ∧
      (∃ c, (emptyDeck.addCard "B" 5).getNextCard 0 = some c ∧
        c ∈ (emptyDeck.addCard "B" 5).values ∧ c.isNew = true)) ∧
    (emptyDeck.getDueCards 0 = [] ∧ emptyDeck.getNextCard 0 = none) :=
  ⟨⟨rfl, (getNextCard_spec (emptyDeck.addCard "A" 0) 0).1 (initCard "A" 0) [] rfl⟩,
   ⟨rfl, ((getNextCard_spec (emptyDeck.addCard "B" 5) 0).2 rfl).1
      ⟨initCard "B" 5, List.mem_cons_self _ _, rfl⟩⟩,
   ⟨rfl, ((getNextCard_spec emptyDeck 0).2 rfl).2 (fun c hc => by cases hc)⟩⟩

/-- Card-level round trip: `fromJSON(toJSON(card))` restores every
field, whatever the clock read inside the constructor returns. -/
theorem card_fromJSON_toJSON (c : SM2Card) (now : ℤ) :
    SM2Card.fromJSON (SM2Card.toJSON c) now = c := rfl

/-- The engine's operations never change the two configuration
scalars, so every reachable deck carries the defaults. -/
theorem reachable_config (d : SM2Deck) (h : Reachable d) :
    d.newCardsPerDay = 5 ∧ d.maxReviewsPerSession = 50 := by
  induction h with
  | empty => exact ⟨rfl, rfl⟩
  | add d ch now h ih =>
    simp only [SM2Deck.addCard]
    split_ifs <;> exact ih
  | grade d ch q rt n1 n2 h ih => exact ih

theorem deck_cards_roundTrip (now : ℤ) (l : List (String × SM2Card)) :
    (l.map (fun p => (p.1, p.2.toJSON))).map (fun p => (p.1, SM2Card.fromJSON p.2 now)) = l := by
  induction l with
  | nil => rfl
  | cons p l ih =>
    simp only [List.map_cons]
    rw [ih]
    rfl

/-- Deck-level round trip for decks carrying the default scalars. -/
theorem deck_fromJSON_toJSON (d : SM2Deck) (now : ℤ)
    (h5 : d.newCardsPerDay = 5) (h50 : d.maxReviewsPerSession = 50) :
    SM2Deck.fromJSON (SM2Deck.toJSON d) now = d := by
  rcases d with ⟨cards, njd, mrps⟩
  simp only at h5 h50
  subst h5; subst h50
  simp only [SM2Deck.toJSON, SM2Deck.fromJSON, SM2Deck.mk.injEq]
  refine ⟨deck_cards_roundTrip now cards, by norm_num, by norm_num⟩

/-- C9: serializing any reachable deck and restoring it yields the
identical deck; in particular `getNextCard` and `getStats` at any
instant agree with the pre-serialization deck. -/
theorem roundTrip_spec (d : SM2Deck) (now t : ℤ) (h : Reachable d) :
    SM2Deck.fromJSON (SM2Deck.toJSON d) now = d ∧
    (SM2Deck.fromJSON (SM2Deck.toJSON d) now).getNextCard t = d.getNextCard t ∧
    (SM2Deck.fromJSON (SM2Deck.toJSON d) now).getStats t = d.getStats t := by
  have heq := deck_fromJSON_toJSON d now (reachable_config d h).1 (reachable_config d h).2
  exact ⟨heq, by rw [heq], by rw [heq]⟩

/-- C9 witness: the round trip at a deck built by one `addCard` and one
grade. -/
theorem roundTrip_spec_witness :
    SM2Deck.fromJSON
        (SM2Deck.toJSON ((emptyDeck.addCard "A" 0).gradeCard "A" 5 1000 0 0)) 7 =
      (emptyDeck.addCard "A" 0).gradeCard "A" 5 1000 0 0 ∧
    (SM2Deck.fromJSON
        (SM2Deck.toJSON ((emptyDeck.addCard "A" 0).gradeCard "A" 5 1000 0 0)) 7).getNextCard 3 =
      ((emptyDeck.addCard "A" 0).gradeCard "A" 5 1000 0 0).getNextCard 3 ∧
    (SM2Deck.fromJSON
        (SM2Deck.toJSON ((emptyDeck.addCard "A" 0).gradeCard "A" 5 1000 0 0)) 7).getStats 3 =
      ((emptyDeck.addCard "A" 0).gradeCard "A" 5 1000 0 0).getStats 3 :=
  roundTrip_spec _ 7 3
    (Reachable.grade _ "A" 5 1000 0 0 (Reachable.add _ "A" 0 Reachable.empty))

/-- C10: restoring a persisted deck maps a stored `newCardsPerDay` of 0
to the default 5 and a stored `maxReviewsPerSession` of 0 to the
default 50 (falsy values are replaced), while positive stored values
are restored unchanged. -/
theorem fromJSON_defaults (data : SM2DeckJSON) (now : ℤ) :
    (data.newCardsPerDay = 0 → (SM2Deck.fromJSON data now).newCardsPerDay = 5) ∧
    (0 < data.newCardsPerDay →
      (SM2Deck.fromJSON data now).newCardsPerDay = data.newCardsPerDay) ∧
    (data.maxReviewsPerSession = 0 →
      (SM2Deck.fromJSON data now).maxReviewsPerSession = 50) ∧
    (0 < data.maxReviewsPerSession →
      (SM2Deck.fromJSON data now).maxReviewsPerSession = data.maxReviewsPerSession) := by
  refine ⟨fun h0 => ?_, fun hp => ?_, fun h0 => ?_, fun hp => ?_⟩ <;>
    simp only [SM2Deck.fromJSON]
  · rw [if_pos h0]
  · rw [if_neg (by omega)]
  · rw [if_pos h0]
  · rw [if_neg (by omega)]

/-- C10 witness: stored zeros become the defaults 5 and 50; stored
positive values 7 and 9 are restored unchanged. -/
theorem fromJSON_defaults_witness :
    ((⟨[], 0, 0⟩ : SM2DeckJSON).newCardsPerDay = 0 ∧
      (SM2Deck.fromJSON ⟨[], 0, 0⟩ 0).newCardsPerDay = 5) ∧
    ((⟨[], 0, 0⟩ : SM2DeckJSON).maxReviewsPerSession = 0 ∧
      (SM2Deck.fromJSON ⟨[], 0, 0⟩ 0).maxReviewsPerSession = 50) ∧
    ((0 : ℤ) < (⟨[], 7, 9⟩ : SM2DeckJSON).newCardsPerDay ∧
      (SM2Deck.fromJSON ⟨[], 7, 9⟩ 0).newCardsPerDay = 7) ∧
    ((0 : ℤ) < (⟨[], 7, 9⟩ : SM2DeckJSON).maxReviewsPerSession ∧
      (SM2Deck.fromJSON ⟨[], 7, 9⟩ 0).maxReviewsPerSession = 9) :=
  ⟨⟨rfl, (fromJSON_defaults ⟨[], 0, 0⟩ 0).1 rfl⟩,
   ⟨rfl, (fromJSON_defaults ⟨[], 0, 0⟩ 0).2.2.1 rfl⟩,
   ⟨by decide, (fromJSON_defaults ⟨[], 7, 9⟩ 0).2.1 (by decide)⟩,
   ⟨by decide, (fromJSON_defaults ⟨[], 7, 9⟩ 0).2.2.2 (by decide)⟩⟩
